import Mathlib

/-!
Verification of the anti-blocking / scraping core of the `amazon-scrape`
repository.  Each Python component relevant to the frozen claims is given a
shallow embedding as executable Lean definitions, translated directly from
the source files (`anti_block.py`, `fingerprint.py`, `scraper/worker.py`,
`scraper/extractor.py`, `extract/loader.py`), and the claims are settled as
theorems about those definitions.
-/

set_option maxHeartbeats 1000000
set_option maxRecDepth 4000

namespace AmazonScrape

/-! ## Generic string helpers

Python strings are modelled as `List Char`.  `substr pat hay` is Python's
`pat in hay`; `lowerStr` is `str.lower()` (ASCII, which covers every
indicator constant in the source); `pyStrip` is `str.strip()`. -/

/-- Python's whitespace class for `str.strip()` / regex `\s` (ASCII part). -/
def isWS (c : Char) : Bool :=
  c = ' ' || c = '\t' || c = '\n' || c = '\r' || c = '\x0b' || c = '\x0c'

/-- Python `pat in hay` (substring containment) on character lists. -/
def substr (pat : List Char) : List Char → Bool
  | [] => pat.isEmpty
  | c :: t => pat.isPrefixOf (c :: t) || substr pat t

/-- Python `s.lower()` restricted to ASCII case mapping. -/
def lowerStr (s : List Char) : List Char := s.map Char.toLower

/-- Python `s.strip()`: drop whitespace from both ends. -/
def pyStrip (s : List Char) : List Char :=
  ((s.dropWhile isWS).reverse.dropWhile isWS).reverse

/-- Convenience: the characters of a string literal. -/
def chars (s : String) : List Char := s.data

/-! ## `ProxyManager` (`anti_block.py`, lines 23–99)

State: the immutable candidate list `proxy_list` and the mutable set
`failed_proxies`.  `random.choice(available)` is modelled by an external
choice index `k`: the code picks `available[k % len(available)]` for the
`k` the PRNG happens to produce. -/

structure ProxyManager where
  proxy_list : List String
  failed_proxies : Finset String
deriving DecidableEq

namespace ProxyManager

/-- Model of `ProxyManager.__init__` -/
def init (l : List String) : ProxyManager := ⟨l, ∅⟩

/-- The `available` list computed inside `get_next_proxy`. -/
def available (m : ProxyManager) : List String :=
  m.proxy_list.filter (fun p => p ∉ m.failed_proxies)

/-- Model of `get_next_proxy` with choice index `k` standing for the random draw.
Returns the chosen proxy (or `none` for a direct connection) together with
the updated manager state. -/
def get_next_proxy (m : ProxyManager) (k : Nat) : Option String × ProxyManager :=
  if m.proxy_list.isEmpty then (none, m)
  else
    let avail := m.available
    if avail.isEmpty then
      let m' : ProxyManager := ⟨m.proxy_list, ∅⟩
      (m.proxy_list.get? (k % m.proxy_list.length), m')
    else
      (avail.get? (k % avail.length), m)

/-- Model of `mark_failed` (the Python guard `if proxy:` rejects the empty string). -/
def mark_failed (m : ProxyManager) (p : String) : ProxyManager :=
  if p = "" then m else ⟨m.proxy_list, insert p m.failed_proxies⟩

end ProxyManager

/-! ## `ThrottleManager` (`anti_block.py`, lines 271–331)

Only the request counter and the backoff multiplier influence the claims;
the float multiplier is modelled exactly over `ℚ`.  `wait()` first
increments the counter and then, when the counter is a multiple of
`burst_threshold`, scales the multiplier. -/

structure ThrottleManager where
  burst_threshold : Nat
  request_count : Nat
  backoff_multiplier : ℚ
deriving DecidableEq

namespace ThrottleManager

/-- Model of `ThrottleManager.__init__` (default `burst_threshold=10`). -/
def init (bt : Nat) : ThrottleManager := ⟨bt, 0, 1⟩

/-- The multiplier/counter effect of `wait()` (the sleeping itself is a pure
side effect and does not touch the modelled state beyond this). -/
def wait (t : ThrottleManager) : ThrottleManager :=
  let c := t.request_count + 1
  { t with
    request_count := c
    backoff_multiplier :=
      if c % t.burst_threshold = 0 then min (t.backoff_multiplier * (3/2)) 3
      else t.backoff_multiplier }

/-- Model of `report_success()` -/
def report_success (t : ThrottleManager) : ThrottleManager :=
  if 1 < t.backoff_multiplier then
    { t with backoff_multiplier := max 1 (t.backoff_multiplier * (9/10)) }
  else t

/-- The error kinds distinguished by `report_error`. -/
inductive ErrorKind where
  | rate_limit | block | generic
deriving DecidableEq

/-- Model of `report_error(error_type)` -/
def report_error (t : ThrottleManager) (k : ErrorKind) : ThrottleManager :=
  match k with
  | .rate_limit => { t with backoff_multiplier := min (t.backoff_multiplier * 2) 5 }
  | .block => { t with backoff_multiplier := min (t.backoff_multiplier * 3) 10 }
  | .generic => t

/-- One call of the public throttle API. -/
inductive Op where
  | wait | success | error (k : ErrorKind)
deriving DecidableEq

/-- Apply one API call. -/
def applyOp (t : ThrottleManager) : Op → ThrottleManager
  | .wait => t.wait
  | .success => t.report_success
  | .error k => t.report_error k

/-- Run a call sequence from a freshly constructed manager. -/
def run (bt : Nat) (ops : List Op) : ThrottleManager :=
  ops.foldl applyOp (init bt)

end ThrottleManager

/-! ## Block / captcha detection (`anti_block.py`, lines 106–399)

A live page is abstracted into a `Snapshot`: current URL, title and page
source (as the driver reports them), plus one boolean for the DOM query
"some `CAPTCHA_XPATHS` selector matches a displayed element" (the only way
the detector consumes `find_elements`). -/

structure Snapshot where
  url : List Char
  title : List Char
  page_source : List Char
  captcha_element_visible : Bool

/-- Model of `CaptchaDetector.CAPTCHA_URL_PATTERNS` -/
def CAPTCHA_URL_PATTERNS : List (List Char) :=
  [chars "/captcha/", chars "/validatecaptcha", chars "/errors/validatecaptcha",
   chars "captcha"]

/-- Model of `CaptchaDetector.STRONG_INDICATORS` -/
def STRONG_INDICATORS : List (List Char) :=
  [chars "enter the characters you see below",
   chars "type the characters you see in this image",
   chars "sorry, we just need to make sure you're not a robot",
   chars "to continue, please type the characters below",
   chars "please enable cookies to continue",
   chars "access to this page has been denied"]

/-- Model of `BlockDetector.BLOCK_INDICATORS` -/
def BLOCK_INDICATORS : List (List Char) :=
  [chars "access denied", chars "blocked", chars "forbidden", chars "banned",
   chars "too many requests", chars "rate limit", chars "service unavailable",
   chars "please try again later", chars "automated access",
   chars "suspicious activity"]

/-- The captcha kind reported by `is_captcha_present`. -/
inductive CaptchaKind where
  | url | title | element | text_pattern | small_page
deriving DecidableEq

/-- Model of `CaptchaDetector.is_captcha_present`: the five checks in source order,
first match wins. -/
def is_captcha_present (s : Snapshot) : Option CaptchaKind :=
  let current_url := lowerStr s.url
  if CAPTCHA_URL_PATTERNS.any (fun p => substr p current_url) then some .url
  else
    let title := lowerStr s.title
    if substr (chars "robot") title || substr (chars "captcha") title then some .title
    else if s.captcha_element_visible then some .element
    else
      let page_source := lowerStr s.page_source
      if STRONG_INDICATORS.any (fun p => substr p page_source) then some .text_pattern
      else if page_source.length < 10000 &&
          (substr (chars "captcha") page_source ||
           substr (chars "robot check") page_source) then some .small_page
      else none

/-- The reason reported by `BlockDetector.is_blocked`. -/
inductive BlockReason where
  | titleContains (ind : List Char)
  | pageContains (ind : List Char)
  | suspiciouslySmall
deriving DecidableEq

/-- Model of `BlockDetector.is_blocked`: title indicators, then indicators in the
first 5000 characters of the source, then the small-page check. -/
def is_blocked (s : Snapshot) : Option BlockReason :=
  let page_source := lowerStr s.page_source
  let title := lowerStr s.title
  match BLOCK_INDICATORS.find? (fun i => substr i title) with
  | some i => some (.titleContains i)
  | none =>
    let content_sample := page_source.take 5000
    match BLOCK_INDICATORS.find? (fun i => substr i content_sample) with
    | some i => some (.pageContains i)
    | none =>
      if page_source.length < 1000 then some .suspiciouslySmall
      else none

/-- The classification a snapshot receives inside
`ProtectedScraper.navigate_with_protection` (lines 574–589): the block
detector runs first, the captcha detector only when it reports nothing. -/
inductive Classification where
  | clean
  | blocked (reason : BlockReason)
  | captcha (kind : CaptchaKind)
deriving DecidableEq

/-- Combined block/captcha classification as `navigate_with_protection`
evaluates it. -/
def classify (s : Snapshot) : Classification :=
  match is_blocked s with
  | some r => .blocked r
  | none =>
    match is_captcha_present s with
    | some k => .captcha k
    | none => .clean

/-! ## `ProtectedScraper.navigate_with_protection` (`anti_block.py`, 543–603)

Each iteration of the retry loop interacts with the live browser; the
externally determined outcome of attempt `i` is abstracted into an oracle
`Nat → AttemptOutcome`.  `blocked` means `BlockDetector.is_blocked` fired;
`captchaUnsolved` means the captcha was detected and the manual solve timed
out; `error` means the attempt raised and was caught by the `except` arm. -/

inductive AttemptOutcome where
  | success | blocked | captchaSolved | captchaUnsolved | error
deriving DecidableEq

/-- Result of the whole call: returned boolean, number of `rotate_ip`
invocations, number of attempts performed. -/
structure NavResult where
  returned : Bool
  rotations : Nat
  attempts : Nat
deriving DecidableEq

/-- The retry loop of `navigate_with_protection`; `n` is the number of
iterations `range(retries)` still has available, `attempt` the current
index.  In the `blocked` and unsolved-captcha branches `rotate_ip` runs
unconditionally before `continue`; in the exception branch it runs only
when `attempt < retries - 1`. -/
def navAux (out : Nat → AttemptOutcome) (retries : Nat) : Nat → Nat → NavResult
  | _, 0 => ⟨false, 0, 0⟩
  | attempt, n + 1 =>
    match out attempt with
    | .success => ⟨true, 0, 1⟩
    | .captchaSolved => ⟨true, 0, 1⟩
    | .blocked =>
      let r := navAux out retries (attempt + 1) n
      ⟨r.returned, r.rotations + 1, r.attempts + 1⟩
    | .captchaUnsolved =>
      let r := navAux out retries (attempt + 1) n
      ⟨r.returned, r.rotations + 1, r.attempts + 1⟩
    | .error =>
      let r := navAux out retries (attempt + 1) n
      ⟨r.returned, r.rotations + (if attempt < retries - 1 then 1 else 0),
       r.attempts + 1⟩

/-- Model of `navigate_with_protection(url, max_retries)`.  Python's
`retries = max_retries or self.max_retries` falls back to the default 3
whenever `max_retries` is falsy, which the model renders as `= 0`. -/
def navigate_with_protection (out : Nat → AttemptOutcome) (max_retries : Nat) :
    NavResult :=
  let retries := if max_retries = 0 then 3 else max_retries
  navAux out retries 0 retries

/-! ## `AmazonHTMLScraper.scrape_product_to_reviews` (`scraper/worker.py`, 85–229)

The simulated browser session is abstracted into `SessionEnv`: for each
reviews page number the environment fixes what the scroll/selector search,
block checks, click and URL reads observe.  The workflow value records the
sequence of page labels passed to `save_html_to_single_file` and the
returned boolean. -/

/-- A page label as used by the worker. -/
inductive PageLabel where
  | product_page
  | reviews_page (n : Nat)
deriving DecidableEq

/-- Model of `MAX_REVIEW_PAGES` from `scraper/settings.py`. -/
def MAX_REVIEW_PAGES : Nat := 500

structure SessionEnv where
  /-- Whether `driver.get(product_url)` raises `TimeoutException`. -/
  product_load_timeout : Bool
  /-- Whether `check_for_blocks` fires on the product page. -/
  product_blocked : Bool
  /-- the "See more reviews" link is found (scroll or CSS fallback). -/
  see_more_found : Bool
  /-- Whether `check_for_blocks` fires on reviews page 1. -/
  reviews_blocked : Bool
  /-- steps A/B find a "Next page" affordance while on reviews page `n`. -/
  next_present : Nat → Bool
  /-- Whether `_is_blocked_or_redirected` fires while on reviews page `n`. -/
  blocked_or_redirected : Nat → Bool
  /-- Whether `_click_next_page` returns `None` (click and href both failed). -/
  click_fails : Nat → Bool
  /-- the URL `_click_next_page` records before clicking on page `n`. -/
  pre_click_url : Nat → String
  /-- The value of `driver.current_url` after the post-click wait on page `n`. -/
  url_after_wait : Nat → String
  /-- The value of `driver.current_url` after the extra 3-second confirmation wait. -/
  url_after_second_wait : Nat → String
  /-- Whether `_looks_like_last_page` fires on the newly reached page `n`. -/
  looks_like_last_page : Nat → Bool

/-- The pagination loop (steps A–F).  Returns the labels saved by the loop
(step F) and the number of extra 3-second confirmation waits performed in
step E. -/
def pagLoop (env : SessionEnv) (page_number : Nat) : List PageLabel × Nat :=
  if _h : page_number < MAX_REVIEW_PAGES then
    if env.next_present page_number = false then ([], 0)
    else if env.blocked_or_redirected page_number then ([], 0)
    else if env.click_fails page_number then ([], 0)
    else if env.url_after_wait page_number = env.pre_click_url page_number then
      if env.url_after_second_wait page_number = env.pre_click_url page_number
        then ([], 1)
      else if env.looks_like_last_page (page_number + 1) then ([], 1)
      else (.reviews_page (page_number + 1) ::
              (pagLoop env (page_number + 1)).1,
            1 + (pagLoop env (page_number + 1)).2)
    else if env.looks_like_last_page (page_number + 1) then ([], 0)
    else (.reviews_page (page_number + 1) ::
            (pagLoop env (page_number + 1)).1,
          (pagLoop env (page_number + 1)).2)
  else ([], 0)
termination_by MAX_REVIEW_PAGES - page_number
decreasing_by all_goals omega

/-- The full workflow: returns the label sequence saved to the output file
and the boolean result.  Every `break` of the loop falls through to the
final `return True`; only the early `return False` paths fail. -/
def scrape_product_to_reviews (env : SessionEnv) : List PageLabel × Bool :=
  if env.product_load_timeout then ([], false)
  else if env.product_blocked then ([], false)
  else if env.see_more_found = false then ([.product_page], false)
  else if env.reviews_blocked then ([.product_page], false)
  else
    ([.product_page, .reviews_page 1] ++ (pagLoop env 1).1, true)

/-! ## `BrowserFingerprint` (`fingerprint.py`, lines 14–142)

The constructor seeds a fresh `random.Random(seed)` and derives every
attribute from that single stream plus `hashlib.md5`.  Both externals are
deterministic, so they are abstracted as parameters: a seeded generator
(`initR`/`next`) and a pure digest function `md5`; the embedding threads
the generator state through the draws exactly in source order. -/

def SCREEN_RESOLUTIONS : List (Nat × Nat) :=
  [(1920, 1080), (1366, 768), (1536, 864), (1440, 900),
   (1280, 720), (1600, 900), (2560, 1440), (1280, 800),
   (1680, 1050), (1360, 768), (1920, 1200), (2560, 1080)]

def USER_AGENTS : List (List Char) :=
  [chars "Mozilla/5.0 (Windows NT 10.0; Win64; x64) AppleWebKit/537.36 (KHTML, like Gecko) Chrome/121.0.0.0 Safari/537.36",
   chars "Mozilla/5.0 (Windows NT 10.0; Win64; x64) AppleWebKit/537.36 (KHTML, like Gecko) Chrome/120.0.0.0 Safari/537.36",
   chars "Mozilla/5.0 (Windows NT 10.0; Win64; x64) AppleWebKit/537.36 (KHTML, like Gecko) Chrome/119.0.0.0 Safari/537.36",
   chars "Mozilla/5.0 (Windows NT 10.0; Win64; x64) AppleWebKit/537.36 (KHTML, like Gecko) Chrome/122.0.0.0 Safari/537.36",
   chars "Mozilla/5.0 (Windows NT 10.0; Win64; x64) AppleWebKit/537.36 (KHTML, like Gecko) Chrome/118.0.0.0 Safari/537.36",
   chars "Mozilla/5.0 (Windows NT 11.0; Win64; x64) AppleWebKit/537.36 (KHTML, like Gecko) Chrome/121.0.0.0 Safari/537.36",
   chars "Mozilla/5.0 (Windows NT 11.0; Win64; x64) AppleWebKit/537.36 (KHTML, like Gecko) Chrome/120.0.0.0 Safari/537.36"]

def LANGUAGES : List (List (List Char)) :=
  [[chars "en-US", chars "en"], [chars "en-GB", chars "en"],
   [chars "en-IN", chars "en"]]

def TIMEZONES : List (List Char × Int) :=
  [(chars "Asia/Kolkata", -330), (chars "America/New_York", 300),
   (chars "America/Los_Angeles", 480), (chars "Europe/London", 0)]

def WEBGL_CONFIGS : List (List Char × List Char) :=
  [(chars "Google Inc. (NVIDIA)", chars "ANGLE (NVIDIA, NVIDIA GeForce GTX 1650 Direct3D11 vs_5_0 ps_5_0, D3D11)"),
   (chars "Google Inc. (NVIDIA)", chars "ANGLE (NVIDIA, NVIDIA GeForce RTX 3060 Direct3D11 vs_5_0 ps_5_0, D3D11)"),
   (chars "Google Inc. (Intel)", chars "ANGLE (Intel, Intel(R) UHD Graphics 630 Direct3D11 vs_5_0 ps_5_0, D3D11)"),
   (chars "Google Inc. (AMD)", chars "ANGLE (AMD, AMD Radeon RX 580 Series Direct3D11 vs_5_0 ps_5_0, D3D11)"),
   (chars "Google Inc. (Intel)", chars "ANGLE (Intel, Intel(R) Iris(R) Xe Graphics Direct3D11 vs_5_0 ps_5_0, D3D11)"),
   (chars "Google Inc. (NVIDIA)", chars "ANGLE (NVIDIA, NVIDIA GeForce RTX 2070 Direct3D11 vs_5_0 ps_5_0, D3D11)")]

def HARDWARE_CONCURRENCY : List Nat := [4, 6, 8, 12, 16]

def DEVICE_MEMORY : List Nat := [4, 8, 16, 32]

def PLATFORMS : List (List Char) := [chars "Win32"]

/-- Model of `random.Random.choice` over a catalog, driven by one generator draw. -/
def rchoice {σ α : Type} (next : σ → Nat × σ) (l : List α) (d : α) (g : σ) :
    α × σ :=
  let (k, g') := next g
  (l.getD (k % l.length) d, g')

/-- Model of `random.Random.randint(lo, hi)` driven by one generator draw. -/
def rint {σ : Type} (next : σ → Nat × σ) (lo hi : Nat) (g : σ) : Nat × σ :=
  let (k, g') := next g
  (lo + k % (hi - lo + 1), g')

/-- Model of `random.Random.uniform(-1e-4, 1e-4)` driven by one generator draw. -/
def runiform {σ : Type} (next : σ → Nat × σ) (g : σ) : ℚ × σ :=
  let (k, g') := next g
  (((k % 20001 : ℚ) - 10000) / 100000000, g')

structure Fingerprint where
  seed : Nat
  screen_width : Nat
  screen_height : Nat
  color_depth : Nat
  pixel_ratio : ℚ
  window_width : Nat
  window_height : Nat
  user_agent : List Char
  languages : List (List Char)
  timezone_name : List Char
  timezone_offset : Int
  webgl_vendor : List Char
  webgl_renderer : List Char
  hardware_concurrency : Nat
  device_memory : Nat
  platform : List Char
  canvas_noise : ℚ
  audio_noise : ℚ
  canvas_hash : List Char
  webgl_hash : List Char
  audio_hash : List Char
deriving DecidableEq

/-- Model of `BrowserFingerprint.__init__` with an explicit seed, composed with
`_generate_fingerprint` and `_generate_ids`: the draws appear in exactly
the source order, all from the one stream seeded by `initR seed`. -/
def BrowserFingerprint_make {σ : Type} (initR : Nat → σ) (next : σ → Nat × σ)
    (md5 : List Char → List Char) (seed : Nat) : Fingerprint :=
  let g0 := initR seed
  let (res, g1) := rchoice next SCREEN_RESOLUTIONS (1920, 1080) g0
  let screen_width := res.1
  let screen_height := res.2
  let (color_depth, g2) := rchoice next [24, 32] 24 g1
  let (pixel_ratio, g3) := rchoice next [(1 : ℚ), 5/4, 3/2, 2] 1 g2
  let (dw, g4) := rint next 0 100 g3
  let window_width := screen_width - dw
  let (dh, g5) := rint next 60 150 g4
  let window_height := screen_height - dh
  let (user_agent, g6) := rchoice next USER_AGENTS [] g5
  let (languages, g7) := rchoice next LANGUAGES [] g6
  let (tz, g8) := rchoice next TIMEZONES ([], 0) g7
  let (webgl, g9) := rchoice next WEBGL_CONFIGS ([], []) g8
  let (hardware_concurrency, g10) := rchoice next HARDWARE_CONCURRENCY 4 g9
  let (device_memory, g11) := rchoice next DEVICE_MEMORY 4 g10
  let (platform, g12) := rchoice next PLATFORMS [] g11
  let (canvas_noise, g13) := runiform next g12
  let (audio_noise, _) := runiform next g13
  let base := chars (toString seed) ++ chars "-" ++ user_agent ++ chars "-" ++
    chars (toString screen_width)
  { seed := seed
    screen_width := screen_width
    screen_height := screen_height
    color_depth := color_depth
    pixel_ratio := pixel_ratio
    window_width := window_width
    window_height := window_height
    user_agent := user_agent
    languages := languages
    timezone_name := tz.1
    timezone_offset := tz.2
    webgl_vendor := webgl.1
    webgl_renderer := webgl.2
    hardware_concurrency := hardware_concurrency
    device_memory := device_memory
    platform := platform
    canvas_noise := canvas_noise
    audio_noise := audio_noise
    canvas_hash := (md5 (chars "canvas-" ++ base)).take 16
    webgl_hash := (md5 (chars "webgl-" ++ base)).take 16
    audio_hash := (md5 (chars "audio-" ++ base)).take 16 }

/-! ## Persisted raw-page format

Writer: `save_html_to_single_file` (`scraper/extractor.py`, 16–46).
Reader: `split_pages` / `PAGE_HEADER` (`extract/loader.py`, 13–67).

The regex
`={80}\nPAGE:\s*(.+?)\nURL:\s*(.+?)\nTIMESTAMP:\s*(.+?)\nSIZE:\s*(.+?)\n={80}`
is embedded specialized to this pattern.  Since `.` excludes `\n` and each
lazy group `(.+?)` is followed by a literal starting with `\n`, a group is
forced to span exactly from its start to the next newline; the only
backtracking the engine performs is over the length consumed by each
greedy `\s*`, longest first.  `finditer` is leftmost, non-overlapping. -/

/-- The 80-character `=` rule of the delimiter. -/
def rule : List Char := List.replicate 80 '='

/-- The character `'0' + d`. -/
def digitChar (d : Nat) : Char := Char.ofNat (48 + d)

/-- Decimal digits of `n` (Python `str(n)`). -/
def natDigits (n : Nat) : List Char :=
  if _h : n < 10 then [digitChar n]
  else natDigits (n / 10) ++ [digitChar (n % 10)]
termination_by n
decreasing_by exact Nat.div_lt_self (by omega) (by omega)

/-- Reversed-digit grouping helper for the thousands separator. -/
def group3Rev (ds : List Char) : List Char :=
  if _h : ds.length ≤ 3 then ds
  else ds.take 3 ++ ',' :: group3Rev (ds.drop 3)
termination_by ds.length
decreasing_by simp only [List.length_drop]; omega

/-- Python `f"{n:,}"`: decimal digits with a comma every three. -/
def commaFmt (n : Nat) : List Char := (group3Rev (natDigits n).reverse).reverse

/-- One page as handed to the writer: label, current URL, timestamp string
and the page HTML. -/
structure PageInput where
  label : List Char
  url : List Char
  timestamp : List Char
  html : List Char
deriving DecidableEq

/-- The metadata header between the two 80-`=` rules (no surrounding blank
lines). -/
def hdrCore (p : PageInput) : List Char :=
  rule ++ chars "\nPAGE: " ++ p.label ++ chars "\nURL: " ++ p.url ++
  chars "\nTIMESTAMP: " ++ p.timestamp ++ chars "\nSIZE: " ++
  commaFmt p.html.length ++ chars " bytes\n" ++ rule

/-- The full separator `save_html_to_single_file` writes before the HTML. -/
def pageSeparator (p : PageInput) : List Char :=
  chars "\n\n" ++ hdrCore p ++ chars "\n\n"

/-- Model of `save_html_to_single_file`: append separator then page source. -/
def save_html_to_single_file (file : List Char) (p : PageInput) : List Char :=
  file ++ pageSeparator p ++ p.html

/-- Appending a run of pages to an initially empty output file. -/
def appendAll (ps : List PageInput) : List Char :=
  ps.foldl save_html_to_single_file []

/-- The block one page contributes to the file. -/
def blockOf (p : PageInput) : List Char := pageSeparator p ++ p.html

/-- Split at the first `'\n'`: `some (before, after)` when one exists. -/
def splitAtNL : List Char → Option (List Char × List Char)
  | [] => none
  | c :: t =>
    if c = '\n' then some ([], t)
    else
      match splitAtNL t with
      | some (g, r) => some (c :: g, r)
      | none => none

/-- The semantics of `(.+?)\n`: at least one non-newline character up to
the next newline, which is consumed. -/
def takeLine (s : List Char) : Option (List Char × List Char) :=
  match splitAtNL s with
  | some (g, r) => if g.isEmpty then none else some (g, r)
  | none => none

/-- Match a literal prefix and return the remainder. -/
def dropPrefixQ (pre s : List Char) : Option (List Char) :=
  if pre.isPrefixOf s then some (s.drop pre.length) else none

/-- Length of the maximal whitespace run at the front (the most `\s*` can
consume). -/
def wsRunLen (s : List Char) : Nat := (s.takeWhile isWS).length

/-- Greedy-star backtracking: try the attempt at `a`, then `a-1`, … -/
def backtrackWS {α : Type} (att : Nat → Option α) : Nat → Option α
  | 0 => att 0
  | a + 1 =>
    match att (a + 1) with
    | some r => some r
    | none => backtrackWS att a

/-- One attempt of `\s*(.+?)\n<kw>` with `\s*` consuming exactly `a`
characters, continued by `cont` on the remainder after `kw`. -/
def fieldAttempt {α : Type} (cont : List Char → Option α) (kw : List Char)
    (s : List Char) (a : Nat) : Option (List Char × α) :=
  match takeLine (s.drop a) with
  | none => none
  | some (g, rest) =>
    match dropPrefixQ kw rest with
    | none => none
    | some r =>
      match cont r with
      | some x => some (g, x)
      | none => none

/-- Model of `\s*(.+?)\n<kw>` with full greedy backtracking over `\s*`. -/
def parseField {α : Type} (cont : List Char → Option α) (kw : List Char)
    (s : List Char) : Option (List Char × α) :=
  backtrackWS (fieldAttempt cont kw s) (wsRunLen s)

/-- Model of `\s*(.+?)\n={80}` — the SIZE group and the closing rule. -/
def parseP4 (s : List Char) : Option (List Char × List Char) :=
  parseField some rule s

/-- Model of `\s*(.+?)\nSIZE:` then `parseP4`. -/
def parseP3 (s : List Char) :
    Option (List Char × List Char × List Char) :=
  parseField parseP4 (chars "SIZE:") s

/-- Model of `\s*(.+?)\nTIMESTAMP:` then `parseP3`. -/
def parseP2 (s : List Char) :
    Option (List Char × List Char × List Char × List Char) :=
  parseField parseP3 (chars "TIMESTAMP:") s

/-- Model of `\s*(.+?)\nURL:` then `parseP2`. -/
def parseP1 (s : List Char) :
    Option (List Char × List Char × List Char × List Char × List Char) :=
  parseField parseP2 (chars "URL:") s

/-- The four captured groups of one `PAGE_HEADER` match. -/
structure HeaderGroups where
  g1 : List Char
  g2 : List Char
  g3 : List Char
  g4 : List Char
deriving DecidableEq

/-- Match `PAGE_HEADER` anchored at the start of `s`; on success return the
groups and the suffix after `match.end()`. -/
def tryMatch (s : List Char) : Option (HeaderGroups × List Char) :=
  match dropPrefixQ rule s with
  | none => none
  | some s1 =>
    match dropPrefixQ (chars "\nPAGE:") s1 with
    | none => none
    | some s2 =>
      match parseP1 s2 with
      | some (g1, g2, g3, g4, r) => some (⟨g1, g2, g3, g4⟩, r)
      | none => none

/-- Leftmost `PAGE_HEADER` match: the text before it, its groups, and the
suffix after it. -/
def findFirst : List Char → Option (List Char × HeaderGroups × List Char)
  | [] => none
  | c :: t =>
    match tryMatch (c :: t) with
    | some (h, rest) => some ([], h, rest)
    | none =>
      match findFirst t with
      | some (pre, h, rest) => some (c :: pre, h, rest)
      | none => none

theorem isPrefixOf_true_iff {l1 l2 : List Char} :
    l1.isPrefixOf l2 = true ↔ l1 <+: l2 :=
  List.isPrefixOf_iff_prefix

theorem splitAtNL_length {s g r : List Char} (h : splitAtNL s = some (g, r)) :
    g.length + 1 + r.length = s.length := by
  induction s generalizing g r with
  | nil => simp [splitAtNL] at h
  | cons c t ih =>
    unfold splitAtNL at h
    split at h
    · simp at h
      obtain ⟨hg, hr⟩ := h
      subst hg; subst hr; simp; omega
    · split at h
      next g' r' he =>
        simp at h
        obtain ⟨hg, hr⟩ := h
        subst hg; subst hr
        have := ih he
        simp
        omega
      · simp at h

theorem takeLine_length {s g r : List Char} (h : takeLine s = some (g, r)) :
    r.length < s.length ∧ 1 ≤ g.length := by
  unfold takeLine at h
  split at h
  next g' r' he =>
    split at h
    · simp at h
    next hg =>
      simp only [Option.some.injEq, Prod.mk.injEq] at h
      obtain ⟨h1, h2⟩ := h
      have hs := splitAtNL_length he
      have hg1 : 1 ≤ g'.length := by
        cases g' with
        | nil => simp at hg
        | cons _ _ => simp
      constructor
      · rw [← h2]; omega
      · rw [← h1]; exact hg1
  · simp at h

theorem dropPrefixQ_some {pre s r : List Char} (h : dropPrefixQ pre s = some r) :
    s = pre ++ r := by
  unfold dropPrefixQ at h
  by_cases hp : pre.isPrefixOf s
  · simp [hp] at h
    obtain ⟨t, ht⟩ := isPrefixOf_true_iff.mp hp
    subst h
    conv_lhs => rw [← ht]
    rw [← ht, List.drop_left]
  · simp [hp] at h

theorem dropPrefixQ_length {pre s r : List Char} (h : dropPrefixQ pre s = some r) :
    r.length + pre.length = s.length := by
  have := dropPrefixQ_some h
  subst this
  simp [Nat.add_comm]

theorem backtrackWS_some {α : Type} {att : Nat → Option α} {a : Nat} {r : α}
    (h : backtrackWS att a = some r) : ∃ b, b ≤ a ∧ att b = some r := by
  induction a with
  | zero => exact ⟨0, le_refl 0, h⟩
  | succ a ih =>
    unfold backtrackWS at h
    cases he : att (a + 1) with
    | some x => rw [he] at h; exact ⟨a + 1, le_refl _, he ▸ h⟩
    | none =>
      rw [he] at h
      obtain ⟨b, hb, hatt⟩ := ih h
      exact ⟨b, Nat.le_succ_of_le hb, hatt⟩

theorem fieldAttempt_some {α : Type} {cont : List Char → Option α}
    {kw s : List Char} {b : Nat} {g : List Char} {x : α}
    (h : fieldAttempt cont kw s b = some (g, x)) :
    ∃ rest r, takeLine (s.drop b) = some (g, rest) ∧
      dropPrefixQ kw rest = some r ∧ cont r = some x := by
  unfold fieldAttempt at h
  split at h
  · simp at h
  next g' rest ht =>
    split at h
    · simp at h
    next r hd =>
      split at h
      next x' hc =>
        simp only [Option.some.injEq, Prod.mk.injEq] at h
        obtain ⟨h1, h2⟩ := h
        rw [h1] at ht
        rw [h2] at hc
        exact ⟨rest, r, ht, hd, hc⟩
      · simp at h

theorem parseP4_length {s g r : List Char} (h : parseP4 s = some (g, r)) :
    r.length < s.length := by
  obtain ⟨b, _, hatt⟩ := backtrackWS_some h
  obtain ⟨rest, r1, ht, hd, hc⟩ := fieldAttempt_some hatt
  have hlt := takeLine_length ht
  have hdl := dropPrefixQ_length hd
  have hle : (s.drop b).length ≤ s.length := by simp
  simp only [Option.some.injEq] at hc
  subst hc
  omega

theorem parseP3_length {s : List Char} {g3 g4 r : List Char}
    (h : parseP3 s = some (g3, g4, r)) : r.length < s.length := by
  obtain ⟨b, _, hatt⟩ := backtrackWS_some h
  obtain ⟨rest, r1, ht, hd, hc⟩ := fieldAttempt_some hatt
  have hlt := takeLine_length ht
  have hdl := dropPrefixQ_length hd
  have hle : (s.drop b).length ≤ s.length := by simp
  have := parseP4_length hc
  omega

theorem parseP2_length {s : List Char} {g2 g3 g4 r : List Char}
    (h : parseP2 s = some (g2, g3, g4, r)) : r.length < s.length := by
  obtain ⟨b, _, hatt⟩ := backtrackWS_some h
  obtain ⟨rest, r1, ht, hd, hc⟩ := fieldAttempt_some hatt
  have hlt := takeLine_length ht
  have hdl := dropPrefixQ_length hd
  have hle : (s.drop b).length ≤ s.length := by simp
  have := parseP3_length hc
  omega

theorem parseP1_length {s : List Char} {g1 g2 g3 g4 r : List Char}
    (h : parseP1 s = some (g1, g2, g3, g4, r)) : r.length < s.length := by
  obtain ⟨b, _, hatt⟩ := backtrackWS_some h
  obtain ⟨rest, r1, ht, hd, hc⟩ := fieldAttempt_some hatt
  have hlt := takeLine_length ht
  have hdl := dropPrefixQ_length hd
  have hle : (s.drop b).length ≤ s.length := by simp
  have := parseP2_length hc
  omega

theorem tryMatch_length {s : List Char} {h : HeaderGroups} {r : List Char}
    (hm : tryMatch s = some (h, r)) : r.length < s.length := by
  unfold tryMatch at hm
  split at hm
  · simp at hm
  next s1 h1 =>
    split at hm
    · simp at hm
    next s2 h2 =>
      split at hm
      next g1 g2 g3 g4 r' h3 =>
        simp at hm
        obtain ⟨_, hr⟩ := hm
        subst hr
        have := parseP1_length h3
        have := dropPrefixQ_length h1
        have := dropPrefixQ_length h2
        omega
      · simp at hm

theorem findFirst_length {s pre : List Char} {h : HeaderGroups} {r : List Char}
    (hm : findFirst s = some (pre, h, r)) : r.length < s.length := by
  induction s generalizing pre with
  | nil => simp [findFirst] at hm
  | cons c t ih =>
    unfold findFirst at hm
    split at hm
    next h' r' he =>
      simp at hm
      obtain ⟨_, hh, hr⟩ := hm
      subst hh; subst hr
      exact tryMatch_length he
    next he =>
      split at hm
      next pre' h' r' hf =>
        simp at hm
        obtain ⟨_, hh, hr⟩ := hm
        subst hh; subst hr
        have := ih hf
        simp
        omega
      · simp at hm

/-- One page record produced by `split_pages`: the stripped groups and the
stripped inter-header slice fed to BeautifulSoup. -/
structure LoadedPage where
  label : List Char
  url : List Char
  timestamp : List Char
  content : List Char
deriving DecidableEq

/-- The record built for one matched header. -/
def mkLoaded (h : HeaderGroups) (content : List Char) : LoadedPage :=
  ⟨pyStrip h.g1, pyStrip h.g2, pyStrip h.g3, pyStrip content⟩

/-- The per-match loop of `split_pages`: `h` are the groups of the match
already found, `s` the text after it; content runs to the next match (or
the end). -/
def splitGo (h : HeaderGroups) (s : List Char) : List LoadedPage :=
  match hm : findFirst s with
  | none => [mkLoaded h s]
  | some (pre, h', rest) => mkLoaded h pre :: splitGo h' rest
termination_by s.length
decreasing_by exact findFirst_length hm

/-- Model of `split_pages`: no separator at all means one `full_file` page holding
the entire input (unstripped); otherwise one record per header. -/
def split_pages (s : List Char) : List LoadedPage :=
  match findFirst s with
  | none => [⟨chars "full_file", [], [], s⟩]
  | some (_, h, rest) => splitGo h rest

/-! ## Claim C3: proxy pool selection and failure marking -/

theorem ProxyManager.mem_available {m : ProxyManager} {q : String} :
    q ∈ m.available ↔ q ∈ m.proxy_list ∧ q ∉ m.failed_proxies := by
  unfold ProxyManager.available
  simp [List.mem_filter]

/-- C3: `get_next_proxy` returns `None` on an empty candidate list; with a
non-exhausted failure set it returns a candidate outside the failure set
and leaves the state unchanged; with the failure set covering the whole
candidate list it clears the failure set and still returns a member of the
full list; `mark_failed` only grows the failure set and is idempotent; and
neither operation changes the candidate list. -/
theorem proxy_pool_spec (m : ProxyManager) (k : Nat) (p : String) :
    (m.proxy_list = [] → (m.get_next_proxy k).1 = none)
    ∧ (¬(∀ q ∈ m.proxy_list, q ∈ m.failed_proxies) →
        (∃ q, (m.get_next_proxy k).1 = some q ∧ q ∈ m.proxy_list ∧
          q ∉ m.failed_proxies) ∧ (m.get_next_proxy k).2 = m)
    ∧ (m.proxy_list ≠ [] → (∀ q ∈ m.proxy_list, q ∈ m.failed_proxies) →
        (m.get_next_proxy k).2.failed_proxies = ∅ ∧
        ∃ q, (m.get_next_proxy k).1 = some q ∧ q ∈ m.proxy_list)
    ∧ m.failed_proxies ⊆ (m.mark_failed p).failed_proxies
    ∧ (m.mark_failed p).mark_failed p = m.mark_failed p
    ∧ (m.mark_failed p).proxy_list = m.proxy_list
    ∧ (m.get_next_proxy k).2.proxy_list = m.proxy_list := by
  refine ⟨?_, ?_, ?_, ?_, ?_, ?_, ?_⟩
  · intro he
    simp [ProxyManager.get_next_proxy, he]
  · intro hne
    push_neg at hne
    obtain ⟨q0, hq0mem, hq0f⟩ := hne
    have hlist : ¬ m.proxy_list.isEmpty := by
      cases hl : m.proxy_list with
      | nil => rw [hl] at hq0mem; simp at hq0mem
      | cons a t => simp [hl]
    have havail : q0 ∈ m.available := by
      simp [ProxyManager.available, hq0mem, hq0f]
    have hav_ne : ¬ m.available.isEmpty := by
      cases hl : m.available with
      | nil => rw [hl] at havail; simp at havail
      | cons a t => simp [hl]
    have hlen : 0 < m.available.length := by
      cases hl : m.available with
      | nil => rw [hl] at havail; simp at havail
      | cons a t => simp [hl]
    have hklt : k % m.available.length < m.available.length := Nat.mod_lt _ hlen
    simp only [ProxyManager.get_next_proxy, if_neg hlist, if_neg hav_ne]
    have hqa : m.available.get ⟨k % m.available.length, hklt⟩ ∈ m.available :=
      List.get_mem _ _ hklt
    have hqf := ProxyManager.mem_available.mp hqa
    refine ⟨⟨m.available.get ⟨k % m.available.length, hklt⟩, ?_, hqf.1, hqf.2⟩, trivial⟩
    exact List.get?_eq_get hklt
  · intro hne hall
    have hlist : ¬ m.proxy_list.isEmpty := by
      cases hl : m.proxy_list with
      | nil => exact absurd hl hne
      | cons a t => simp [hl]
    have hav : m.available.isEmpty := by
      have : m.available = [] := by
        simp only [ProxyManager.available, List.filter_eq_nil_iff]
        intro a ha
        simp [hall a ha]
      simp [this]
    have hlen : 0 < m.proxy_list.length := by
      cases hl : m.proxy_list with
      | nil => exact absurd hl hne
      | cons a t => simp [hl]
    have hklt : k % m.proxy_list.length < m.proxy_list.length := Nat.mod_lt _ hlen
    simp only [ProxyManager.get_next_proxy, if_neg hlist, if_pos hav]
    exact ⟨trivial, m.proxy_list.get ⟨k % m.proxy_list.length, hklt⟩,
      List.get?_eq_get hklt, List.get_mem _ _ hklt⟩
  · by_cases hp : p = ""
    · simp [ProxyManager.mark_failed, hp]
    · simp only [ProxyManager.mark_failed, if_neg hp]
      exact Finset.subset_insert _ _
  · by_cases hp : p = ""
    · simp [ProxyManager.mark_failed, hp]
    · simp [ProxyManager.mark_failed, hp, Finset.insert_idem]
  · by_cases hp : p = "" <;> simp [ProxyManager.mark_failed, hp]
  · by_cases hlist : m.proxy_list.isEmpty
    · simp [ProxyManager.get_next_proxy, hlist]
    · by_cases hav : m.available.isEmpty <;>
        simp [ProxyManager.get_next_proxy, hlist, hav]

/-- Witness for C3 at a concrete pool. -/
theorem proxy_pool_spec_witness :
    ((⟨["a", "b"], {"a"}⟩ : ProxyManager).proxy_list = [] →
      ((⟨["a", "b"], {"a"}⟩ : ProxyManager).get_next_proxy 0).1 = none) ∧
    ((∃ q, ((⟨["a", "b"], {"a"}⟩ : ProxyManager).get_next_proxy 0).1 = some q ∧
        q ∈ ["a", "b"] ∧ q ∉ ({"a"} : Finset String)) ∧
      ((⟨["a", "b"], {"a"}⟩ : ProxyManager).get_next_proxy 0).2 =
        (⟨["a", "b"], {"a"}⟩ : ProxyManager)) := by
  have h := proxy_pool_spec ⟨["a", "b"], {"a"}⟩ 0 "c"
  exact ⟨h.1, h.2.1 (by decide)⟩

namespace ThrottleManager

theorem applyOp_bounds (t : ThrottleManager) (o : Op)
    (h1 : 1 ≤ t.backoff_multiplier) (h2 : t.backoff_multiplier ≤ 10) :
    1 ≤ (applyOp t o).backoff_multiplier ∧ (applyOp t o).backoff_multiplier ≤ 10 := by
  cases o with
  | wait =>
    simp only [applyOp, wait]
    split
    · constructor
      · exact le_min (by nlinarith) (by norm_num)
      · exact le_trans (min_le_right _ _) (by norm_num)
    · exact ⟨h1, h2⟩
  | success =>
    simp only [applyOp, report_success]
    split
    · constructor
      · exact le_max_left _ _
      · exact max_le (by norm_num) (by nlinarith)
    · exact ⟨h1, h2⟩
  | error k =>
    cases k with
    | rate_limit =>
      simp only [applyOp, report_error]
      constructor
      · exact le_min (by nlinarith) (by norm_num)
      · exact le_trans (min_le_right _ _) (by norm_num)
    | block =>
      simp only [applyOp, report_error]
      constructor
      · exact le_min (by nlinarith) (by norm_num)
      · exact min_le_right _ _
    | generic => exact ⟨h1, h2⟩

theorem foldl_bounds (ops : List Op) (t : ThrottleManager)
    (h1 : 1 ≤ t.backoff_multiplier) (h2 : t.backoff_multiplier ≤ 10) :
    1 ≤ (ops.foldl applyOp t).backoff_multiplier ∧
      (ops.foldl applyOp t).backoff_multiplier ≤ 10 := by
  induction ops generalizing t with
  | nil => exact ⟨h1, h2⟩
  | cons o rest ih =>
    have := applyOp_bounds t o h1 h2
    exact ih (applyOp t o) this.1 this.2

end ThrottleManager

/-! ## Claim C4: backoff multiplier behaviour -/

/-- C4: from a fresh `ThrottleManager` the multiplier stays within
`[1, 10]` under any call sequence; a `wait()` landing on the burst
threshold scales by 1.5 capped at 3 (otherwise leaves the multiplier
alone); `report_success` applies ×0.9 floored at 1 and strictly decreases
the multiplier while above 1; `report_error` applies ×2 capped 5 for
rate limits, ×3 capped 10 for blocks, and nothing for generic errors. -/
theorem throttle_multiplier_spec (bt : Nat) (ops : List ThrottleManager.Op)
    (st : ThrottleManager) :
    (1 ≤ (ThrottleManager.run bt ops).backoff_multiplier ∧
      (ThrottleManager.run bt ops).backoff_multiplier ≤ 10)
    ∧ ((st.request_count + 1) % st.burst_threshold = 0 →
        st.wait.backoff_multiplier = min (st.backoff_multiplier * (3/2)) 3)
    ∧ ((st.request_count + 1) % st.burst_threshold ≠ 0 →
        st.wait.backoff_multiplier = st.backoff_multiplier)
    ∧ (1 < st.backoff_multiplier →
        st.report_success.backoff_multiplier = max 1 (st.backoff_multiplier * (9/10)) ∧
        st.report_success.backoff_multiplier < st.backoff_multiplier ∧
        1 ≤ st.report_success.backoff_multiplier)
    ∧ (st.backoff_multiplier ≤ 1 →
        st.report_success.backoff_multiplier = st.backoff_multiplier)
    ∧ (st.report_error .rate_limit).backoff_multiplier =
        min (st.backoff_multiplier * 2) 5
    ∧ (st.report_error .block).backoff_multiplier =
        min (st.backoff_multiplier * 3) 10
    ∧ (st.report_error .generic).backoff_multiplier = st.backoff_multiplier := by
  refine ⟨?_, ?_, ?_, ?_, ?_, rfl, rfl, rfl⟩
  · exact ThrottleManager.foldl_bounds ops _ (by norm_num [ThrottleManager.init])
      (by norm_num [ThrottleManager.init])
  · intro h
    simp [ThrottleManager.wait, h]
  · intro h
    simp [ThrottleManager.wait, h]
  · intro h
    simp only [ThrottleManager.report_success, if_pos h]
    refine ⟨trivial, ?_, le_max_left _ _⟩
    exact max_lt h (by nlinarith)
  · intro h
    simp [ThrottleManager.report_success, not_lt.mpr h]

/-- Witness for C4 at a concrete manager state and call sequence. -/
theorem throttle_multiplier_spec_witness :
    (1 ≤ (ThrottleManager.run 10
        [.error .block, .wait, .success]).backoff_multiplier ∧
      (ThrottleManager.run 10
        [.error .block, .wait, .success]).backoff_multiplier ≤ 10)
    ∧ (⟨10, 9, 2⟩ : ThrottleManager).wait.backoff_multiplier = min (2 * (3/2)) 3
    ∧ (⟨10, 9, 2⟩ : ThrottleManager).report_success.backoff_multiplier <
        (⟨10, 9, 2⟩ : ThrottleManager).backoff_multiplier := by
  refine ⟨(throttle_multiplier_spec 10 [.error .block, .wait, .success] ⟨10, 9, 2⟩).1,
    (throttle_multiplier_spec 10 [.error .block, .wait, .success] ⟨10, 9, 2⟩).2.1
      (by decide), ?_⟩
  exact ((throttle_multiplier_spec 10 [.error .block, .wait, .success]
    ⟨10, 9, 2⟩).2.2.2.1 (by norm_num)).2.1

/-! ## Claim C5: fingerprint determinism -/

/-- C5: two fingerprints constructed from the same seed (each seeding its
own generator, as `__init__` does with `random.Random(seed)`) agree on
every attribute and on all three derived hashes. -/
theorem fingerprint_deterministic {σ : Type} (initR : Nat → σ)
    (next : σ → Nat × σ) (md5 : List Char → List Char) (seed : Nat)
    (f1 f2 : Fingerprint)
    (h1 : f1 = BrowserFingerprint_make initR next md5 seed)
    (h2 : f2 = BrowserFingerprint_make initR next md5 seed) :
    f1.screen_width = f2.screen_width ∧ f1.screen_height = f2.screen_height ∧
    f1.color_depth = f2.color_depth ∧ f1.pixel_ratio = f2.pixel_ratio ∧
    f1.window_width = f2.window_width ∧ f1.window_height = f2.window_height ∧
    f1.user_agent = f2.user_agent ∧ f1.languages = f2.languages ∧
    f1.timezone_name = f2.timezone_name ∧
    f1.timezone_offset = f2.timezone_offset ∧
    f1.webgl_vendor = f2.webgl_vendor ∧ f1.webgl_renderer = f2.webgl_renderer ∧
    f1.hardware_concurrency = f2.hardware_concurrency ∧
    f1.device_memory = f2.device_memory ∧ f1.platform = f2.platform ∧
    f1.canvas_noise = f2.canvas_noise ∧ f1.audio_noise = f2.audio_noise ∧
    f1.canvas_hash = f2.canvas_hash ∧ f1.webgl_hash = f2.webgl_hash ∧
    f1.audio_hash = f2.audio_hash := by
  subst h1; subst h2
  exact ⟨rfl, rfl, rfl, rfl, rfl, rfl, rfl, rfl, rfl, rfl, rfl, rfl, rfl, rfl,
    rfl, rfl, rfl, rfl, rfl, rfl⟩

/-- Witness for C5 at a concrete generator and seed. -/
theorem fingerprint_deterministic_witness :
    (BrowserFingerprint_make (fun n => n) (fun g => (g, g + 1))
        (fun b => b) 42).canvas_hash =
      (BrowserFingerprint_make (fun n => n) (fun g => (g, g + 1))
        (fun b => b) 42).canvas_hash ∧
    (BrowserFingerprint_make (fun n => n) (fun g => (g, g + 1))
        (fun b => b) 42).user_agent =
      (BrowserFingerprint_make (fun n => n) (fun g => (g, g + 1))
        (fun b => b) 42).user_agent := by
  have h := fingerprint_deterministic (fun n => n) (fun g => (g, g + 1))
    (fun b => b) 42 _ _ rfl rfl
  exact ⟨h.2.2.2.2.2.2.2.2.2.2.2.2.2.2.2.2.2.1, h.2.2.2.2.2.2.1⟩

/-! ## Claim C1: retry loop under permanent blocking -/

theorem navAux_all_blocked (out : Nat → AttemptOutcome) (retries : Nat)
    (h : ∀ i, out i = .blocked) (n attempt : Nat) :
    navAux out retries attempt n = ⟨false, n, n⟩ := by
  induction n generalizing attempt with
  | zero => rfl
  | succ n ih => simp [navAux, h attempt, ih (attempt + 1)]

/-- C1 (amended): when every attempt is classified blocked,
`navigate_with_protection` performs exactly `maxRetries` attempts, returns
the failure value `False` (never an exception), and invokes `rotate_ip`
exactly `maxRetries` times — one per blocked attempt, including the last,
because the blocked branch rotates unconditionally before `continue`. -/
theorem navigate_all_blocked (out : Nat → AttemptOutcome) (max_retries : Nat)
    (hr : 1 ≤ max_retries) (h : ∀ i, out i = .blocked) :
    navigate_with_protection out max_retries =
      ⟨false, max_retries, max_retries⟩ := by
  unfold navigate_with_protection
  rw [if_neg (by omega)]
  exact navAux_all_blocked out max_retries h max_retries 0

/-- Witness for C1 (amended) at `maxRetries = 3`. -/
theorem navigate_all_blocked_witness :
    navigate_with_protection (fun _ => AttemptOutcome.blocked) 3 =
      ⟨false, 3, 3⟩ :=
  navigate_all_blocked (fun _ => AttemptOutcome.blocked) 3 (by decide)
    (fun _ => rfl)

/-- C1 counterexample to the claim as stated: with `maxRetries = 3` and
every attempt blocked, `rotate_ip` runs 3 times, not `maxRetries − 1 = 2`.
-/
theorem navigate_rotations_counterexample :
    (navigate_with_protection (fun _ => AttemptOutcome.blocked) 3).rotations ≠
      3 - 1 := by
  decide

/-! ## Claim C2: classification priority order -/

/-- C2 (amended): inside `navigate_with_protection` the block detector is
evaluated before the captcha detector, so any block-indicator hit (title
first, then content sample, then the small-page check) classifies the
snapshot `blocked` even when captcha checks would also fire; only when the
block detector reports nothing do the five captcha checks run, in the
fixed source order url → title → element → text_pattern → small_page with
the first match winning. -/
theorem classify_priority_spec (s : Snapshot) :
    (∀ r, is_blocked s = some r → classify s = .blocked r)
    ∧ (∀ i, BLOCK_INDICATORS.find? (fun j => substr j (lowerStr s.title)) =
        some i → classify s = .blocked (.titleContains i))
    ∧ (CAPTCHA_URL_PATTERNS.any (fun p => substr p (lowerStr s.url)) = true →
        is_captcha_present s = some .url)
    ∧ (CAPTCHA_URL_PATTERNS.any (fun p => substr p (lowerStr s.url)) = false →
        (substr (chars "robot") (lowerStr s.title) ||
          substr (chars "captcha") (lowerStr s.title)) = true →
        is_captcha_present s = some .title)
    ∧ (CAPTCHA_URL_PATTERNS.any (fun p => substr p (lowerStr s.url)) = false →
        (substr (chars "robot") (lowerStr s.title) ||
          substr (chars "captcha") (lowerStr s.title)) = false →
        s.captcha_element_visible = true →
        is_captcha_present s = some .element)
    ∧ (CAPTCHA_URL_PATTERNS.any (fun p => substr p (lowerStr s.url)) = false →
        (substr (chars "robot") (lowerStr s.title) ||
          substr (chars "captcha") (lowerStr s.title)) = false →
        s.captcha_element_visible = false →
        STRONG_INDICATORS.any (fun p => substr p (lowerStr s.page_source)) =
          true →
        is_captcha_present s = some .text_pattern)
    ∧ (CAPTCHA_URL_PATTERNS.any (fun p => substr p (lowerStr s.url)) = false →
        (substr (chars "robot") (lowerStr s.title) ||
          substr (chars "captcha") (lowerStr s.title)) = false →
        s.captcha_element_visible = false →
        STRONG_INDICATORS.any (fun p => substr p (lowerStr s.page_source)) =
          false →
        (lowerStr s.page_source).length < 10000 →
        (substr (chars "captcha") (lowerStr s.page_source) ||
          substr (chars "robot check") (lowerStr s.page_source)) = true →
        is_captcha_present s = some .small_page)
    ∧ (is_blocked s = none → ∀ k, is_captcha_present s = some k →
        classify s = .captcha k)
    ∧ (is_blocked s = none → is_captcha_present s = none →
        classify s = .clean) := by
  refine ⟨?_, ?_, ?_, ?_, ?_, ?_, ?_, ?_, ?_⟩
  · intro r hr
    simp [classify, hr]
  · intro i hi
    have hb : is_blocked s = some (.titleContains i) := by
      unfold is_blocked
      simp [hi]
    simp [classify, hb]
  · intro hurl
    simp [is_captcha_present, hurl]
  · intro hurl htitle
    simp [is_captcha_present, hurl, htitle]
  · intro hurl htitle helem
    simp [is_captcha_present, hurl, htitle, helem]
  · intro hurl htitle helem hstrong
    simp [is_captcha_present, hurl, htitle, helem, hstrong]
  · intro hurl htitle helem hstrong hlen hcontent
    simp [is_captcha_present, hurl, htitle, helem, hstrong, hlen, hcontent]
  · intro hb k hk
    simp [classify, hb, hk]
  · intro hb hk
    simp [classify, hb, hk]

/-- Witness for C2 (amended): a snapshot with both a captcha URL pattern
and a block phrase in the title is classified blocked via the title. -/
theorem classify_priority_spec_witness :
    classify ⟨chars "https://www.amazon.in/errors/validatecaptcha?x=1",
        chars "Blocked", chars "some page body", false⟩ =
      .blocked (.titleContains (chars "blocked")) :=
  (classify_priority_spec _).2.1 (chars "blocked") (by decide)

/-- C2 counterexample to the claim as stated: a snapshot whose URL matches
a captcha pattern and whose title carries a generic block phrase is
classified blocked, not `captcha("url")`. -/
theorem classify_priority_counterexample :
    classify ⟨chars "https://www.amazon.in/errors/validatecaptcha?x=1",
        chars "Blocked", chars "some page body", false⟩ ≠
      .captcha .url := by
  decide

/-! ## Claim C9: small-page block classification -/

/-- C9: on a snapshot free of every captcha indicator and every generic
block phrase, the combined classification is `blocked("suspiciously
small")` exactly when the page length is below 1000, and `clean`
otherwise. -/
theorem small_page_classification (s : Snapshot)
    (h1 : BLOCK_INDICATORS.find? (fun i => substr i (lowerStr s.title)) = none)
    (h2 : BLOCK_INDICATORS.find?
        (fun i => substr i ((lowerStr s.page_source).take 5000)) = none)
    (h3 : CAPTCHA_URL_PATTERNS.any (fun p => substr p (lowerStr s.url)) = false)
    (h4 : (substr (chars "robot") (lowerStr s.title) ||
        substr (chars "captcha") (lowerStr s.title)) = false)
    (h5 : s.captcha_element_visible = false)
    (h6 : STRONG_INDICATORS.any
        (fun p => substr p (lowerStr s.page_source)) = false)
    (h7 : (substr (chars "captcha") (lowerStr s.page_source) ||
        substr (chars "robot check") (lowerStr s.page_source)) = false) :
    (classify s = .blocked .suspiciouslySmall ↔ s.page_source.length < 1000)
    ∧ (1000 ≤ s.page_source.length → classify s = .clean) := by
  have hlen : (lowerStr s.page_source).length = s.page_source.length := by
    simp [lowerStr]
  have hcap : is_captcha_present s = none := by
    simp [is_captcha_present, h3, h4, h5, h6, h7]
  by_cases hsmall : s.page_source.length < 1000
  · have hb : is_blocked s = some .suspiciouslySmall := by
      unfold is_blocked
      simp [h1, h2, hlen, hsmall]
    constructor
    · simp [classify, hb, hsmall]
    · intro hge; omega
  · have hb : is_blocked s = none := by
      unfold is_blocked
      simp [h1, h2, hlen]
      omega
    constructor
    · simp [classify, hb, hcap, hsmall]
    · intro _
      simp [classify, hb, hcap]

theorem substr_replicate_eq_false {pat : List Char} {c : Char} (n : Nat)
    (h : ∃ d ∈ pat, d ≠ c) : substr pat (List.replicate n c) = false := by
  induction n with
  | zero =>
    obtain ⟨d, hd, _⟩ := h
    have hne : pat ≠ [] := by
      intro hc; rw [hc] at hd; simp at hd
    simpa [substr, List.isEmpty_iff] using hne
  | succ n ih =>
    rw [List.replicate_succ]
    show (pat.isPrefixOf (c :: List.replicate n c) || _) = false
    rw [ih]
    simp only [Bool.or_false]
    rw [← List.replicate_succ]
    by_contra hp
    have hpre : pat <+: List.replicate (n + 1) c :=
      isPrefixOf_true_iff.mp (by simpa using hp)
    obtain ⟨d, hd, hdc⟩ := h
    exact hdc (List.eq_of_mem_replicate (hpre.subset hd))

theorem lowerStr_replicate_a (n : Nat) :
    lowerStr (List.replicate n 'a') = List.replicate n 'a' := by
  simp only [lowerStr, List.map_replicate]
  norm_num [show Char.toLower 'a' = 'a' from rfl]

/-- Witness for C9: an indicator-free 3000-character page is clean. -/
theorem small_page_classification_witness :
    classify ⟨chars "https://www.amazon.in/product-reviews/B00TESTTEST",
        chars "Customer reviews", List.replicate 3000 'a', false⟩ =
      .clean := by
  refine (small_page_classification _ (by decide) ?_ (by decide) (by decide)
    rfl ?_ ?_).2 (by rw [List.length_replicate]; omega)
  · show BLOCK_INDICATORS.find?
      (fun i => substr i ((lowerStr (List.replicate 3000 'a')).take 5000)) = none
    rw [lowerStr_replicate_a, List.take_replicate]
    rw [List.find?_eq_none]
    intro i hi
    simp only [Bool.not_eq_true]
    fin_cases hi <;> exact substr_replicate_eq_false _ (by decide)
  · show STRONG_INDICATORS.any
      (fun p => substr p (lowerStr (List.replicate 3000 'a'))) = false
    rw [lowerStr_replicate_a, List.any_eq_false]
    intro p hp
    simp only [Bool.not_eq_true]
    fin_cases hp <;> exact substr_replicate_eq_false _ (by decide)
  · show (substr (chars "captcha") (lowerStr (List.replicate 3000 'a')) ||
      substr (chars "robot check") (lowerStr (List.replicate 3000 'a'))) = false
    rw [lowerStr_replicate_a]
    rw [substr_replicate_eq_false _ (by decide),
      substr_replicate_eq_false _ (by decide)]
    rfl

/-! ## Claim C7: end-to-end five-page scenario -/

/-- C7: with a clean product page, a findable reviews link, a "next"
affordance present on reviews pages 1–3 and absent on page 4, working
clicks, changing URLs and no last-page heuristic, the workflow saves
exactly the five labels product_page, reviews_page_1 … reviews_page_4 and
returns `True`. -/
theorem scrape_five_pages (env : SessionEnv)
    (h1 : env.product_load_timeout = false)
    (h2 : env.product_blocked = false)
    (h3 : env.see_more_found = true)
    (h4 : env.reviews_blocked = false)
    (hn1 : env.next_present 1 = true) (hn2 : env.next_present 2 = true)
    (hn3 : env.next_present 3 = true) (hn4 : env.next_present 4 = false)
    (hb : ∀ n, env.blocked_or_redirected n = false)
    (hc : ∀ n, env.click_fails n = false)
    (hu : ∀ n, env.url_after_wait n ≠ env.pre_click_url n)
    (hl : ∀ n, env.looks_like_last_page n = false) :
    scrape_product_to_reviews env =
      ([.product_page, .reviews_page 1, .reviews_page 2, .reviews_page 3,
        .reviews_page 4], true) := by
  have e4 : pagLoop env 4 = ([], 0) := by
    rw [pagLoop]
    simp [hn4]
  have e3 : pagLoop env 3 = ([.reviews_page 4], 0) := by
    rw [pagLoop]
    simp [MAX_REVIEW_PAGES, hn3, hb 3, hc 3, hu 3, hl 4, e4]
  have e2 : pagLoop env 2 = ([.reviews_page 3, .reviews_page 4], 0) := by
    rw [pagLoop]
    simp [MAX_REVIEW_PAGES, hn2, hb 2, hc 2, hu 2, hl 3, e3]
  have e1 : pagLoop env 1 =
      ([.reviews_page 2, .reviews_page 3, .reviews_page 4], 0) := by
    rw [pagLoop]
    simp [MAX_REVIEW_PAGES, hn1, hb 1, hc 1, hu 1, hl 2, e2]
  simp [scrape_product_to_reviews, h1, h2, h3, h4, e1]

/-- Witness for C7 at a concrete simulated session. -/
theorem scrape_five_pages_witness :
    scrape_product_to_reviews
      ⟨false, false, true, false, fun n => decide (n ≤ 3), fun _ => false,
        fun _ => false, fun _ => "page-a", fun _ => "page-b",
        fun _ => "page-b", fun _ => false⟩ =
      ([.product_page, .reviews_page 1, .reviews_page 2, .reviews_page 3,
        .reviews_page 4], true) :=
  scrape_five_pages _ rfl rfl rfl rfl (by decide) (by decide) (by decide)
    (by decide) (fun _ => rfl) (fun _ => rfl)
    (fun _ => (by decide : ("page-b" : String) ≠ "page-a")) (fun _ => rfl)

/-! ## Claim C8: no-op click terminates the loop -/

/-- C8: if clicking "next" never changes the URL from its pre-click value,
the pagination loop performs at most one extra confirmation wait, appends
no further pages, and exits — it never iterates. -/
theorem pagination_noop_click_stops (env : SessionEnv) (pn : Nat)
    (hu : ∀ n, env.url_after_wait n = env.pre_click_url n)
    (hu2 : ∀ n, env.url_after_second_wait n = env.pre_click_url n) :
    (pagLoop env pn).1 = [] ∧ (pagLoop env pn).2 ≤ 1 := by
  rw [pagLoop]
  split
  · split
    · simp
    · split
      · simp
      · split
        · simp
        · rw [if_pos (hu pn), if_pos (hu2 pn)]
          simp
  · simp

/-- Witness for C8 at a concrete session whose clicks never move. -/
theorem pagination_noop_click_stops_witness :
    (pagLoop
      ⟨false, false, true, false, fun _ => true, fun _ => false,
        fun _ => false, fun _ => "stuck", fun _ => "stuck",
        fun _ => "stuck", fun _ => false⟩ 1).1 = [] ∧
    (pagLoop
      ⟨false, false, true, false, fun _ => true, fun _ => false,
        fun _ => false, fun _ => "stuck", fun _ => "stuck",
        fun _ => "stuck", fun _ => false⟩ 1).2 ≤ 1 :=
  pagination_noop_click_stops _ 1 (fun _ => rfl) (fun _ => rfl)

/-! ## Claim C10: last-page heuristic prevents the save -/

/-- C10: a reviews page on which `_looks_like_last_page` fires is never
among the labels the pagination loop saves — the loop breaks before the
step-F save of that page. -/
theorem lastpage_never_saved (env : SessionEnv) (n : Nat)
    (hl : env.looks_like_last_page n = true) (hn : 2 ≤ n) (pn : Nat) :
    PageLabel.reviews_page n ∉ (pagLoop env pn).1 := by
  have key : ∀ k pn, MAX_REVIEW_PAGES - pn ≤ k →
      PageLabel.reviews_page n ∉ (pagLoop env pn).1 := by
    intro k
    induction k with
    | zero =>
      intro pn hpn
      rw [pagLoop, dif_neg (by omega)]
      simp
    | succ k ih =>
      intro pn hpn
      by_cases hp : pn < MAX_REVIEW_PAGES
      · rw [pagLoop, dif_pos hp]
        split
        · simp
        · split
          · simp
          · split
            · simp
            · split
              · split
                · simp
                · split
                  · simp
                  next hlast =>
                    simp only [List.mem_cons, not_or]
                    refine ⟨?_, ih (pn + 1) (by omega)⟩
                    intro hcon
                    have : n = pn + 1 := by
                      injection hcon
                    rw [this] at hl
                    rw [hl] at hlast
                    exact hlast rfl
              · split
                · simp
                next hlast =>
                  simp only [List.mem_cons, not_or]
                  refine ⟨?_, ih (pn + 1) (by omega)⟩
                  intro hcon
                  have : n = pn + 1 := by
                    injection hcon
                  rw [this] at hl
                  rw [hl] at hlast
                  exact hlast rfl
      · rw [pagLoop, dif_neg hp]
        simp
  exact key MAX_REVIEW_PAGES pn (by omega)

/-- Witness for C10: with the heuristic firing on page 3, the loop that
would otherwise reach it never saves reviews_page_3. -/
theorem lastpage_never_saved_witness :
    PageLabel.reviews_page 3 ∉
      (pagLoop
        ⟨false, false, true, false, fun _ => true, fun _ => false,
          fun _ => false, fun _ => "page-a", fun _ => "page-b",
          fun _ => "page-b", fun n => decide (n = 3)⟩ 1).1 :=
  lastpage_never_saved _ 3 (by decide) (by decide) 1

/-! ## Round-trip lemmas for the raw-page format (claim C6) -/

theorem substr_true_iff {pat hay : List Char} :
    substr pat hay = true ↔ pat <:+: hay := by
  induction hay with
  | nil =>
    simp [substr, List.isEmpty_iff]
  | cons c t ih =>
    show (pat.isPrefixOf (c :: t) || substr pat t) = true ↔ _
    rw [Bool.or_eq_true, ih, List.infix_cons_iff, isPrefixOf_true_iff]

theorem dropPrefixQ_append (p t : List Char) : dropPrefixQ p (p ++ t) = some t := by
  unfold dropPrefixQ
  rw [if_pos (isPrefixOf_true_iff.mpr (List.prefix_append p t))]
  rw [List.drop_left]

theorem splitAtNL_append {v y : List Char} (hv : '\n' ∉ v) :
    splitAtNL (v ++ '\n' :: y) = some (v, y) := by
  induction v with
  | nil => simp [splitAtNL]
  | cons c t ih =>
    have hc : c ≠ '\n' := fun hcon => hv (hcon ▸ List.mem_cons_self c t)
    have ht : '\n' ∉ t := fun hcon => hv (List.mem_cons_of_mem c hcon)
    show splitAtNL (c :: (t ++ '\n' :: y)) = _
    unfold splitAtNL
    rw [if_neg hc, ih ht]

theorem takeLine_append {v y : List Char} (hv : '\n' ∉ v) (hne : v ≠ []) :
    takeLine (v ++ '\n' :: y) = some (v, y) := by
  unfold takeLine
  rw [splitAtNL_append hv]
  simp [List.isEmpty_iff, hne]

theorem wsRunLen_space {a : Char} {t : List Char} (ha : isWS a = false) :
    wsRunLen (' ' :: a :: t) = 1 := by
  unfold wsRunLen
  rw [List.takeWhile_cons, if_pos (by decide), List.takeWhile_cons, if_neg (by simp [ha])]
  rfl

theorem backtrackWS_top {α : Type} {att : Nat → Option α} {a : Nat} {r : α}
    (h : att a = some r) : backtrackWS att a = some r := by
  cases a with
  | zero => exact h
  | succ a =>
    unfold backtrackWS
    rw [h]

/-- Forward evaluation of one well-formed header field: with the group
value starting on the same line after a single space and the continuation
succeeding, the greedy `\s*` consumes exactly that space on its first
attempt. -/
theorem parseField_cons {α : Type} (cont : List Char → Option α)
    (kw : List Char) {a : Char} {v T : List Char} {x : α}
    (ha : isWS a = false) (hnl : '\n' ∉ a :: v) (hx : cont T = some x) :
    parseField cont kw (' ' :: (a :: v) ++ '\n' :: kw ++ T) =
      some (a :: v, x) := by
  unfold parseField
  rw [show (' ' :: (a :: v) ++ '\n' :: kw ++ T) = ' ' :: a :: (v ++ '\n' :: (kw ++ T))
    from by simp]
  rw [wsRunLen_space ha]
  apply backtrackWS_top
  unfold fieldAttempt
  rw [show (' ' :: a :: (v ++ '\n' :: (kw ++ T))).drop 1 = (a :: v) ++ '\n' :: (kw ++ T)
    from by simp]
  rw [takeLine_append hnl (by simp)]
  simp only [dropPrefixQ_append, hx]

theorem natDigits_ne_nil (n : Nat) : natDigits n ≠ [] := by
  rw [natDigits]
  split <;> simp

theorem natDigits_chars (n : Nat) :
    ∀ c ∈ natDigits n, ∃ d, d < 10 ∧ c = digitChar d := by
  induction n using Nat.strong_induction_on with
  | _ n ih =>
    rw [natDigits]
    split
    next h =>
      intro c hc
      simp at hc
      exact ⟨n, h, hc⟩
    next h =>
      intro c hc
      rw [List.mem_append] at hc
      rcases hc with hc | hc
      · exact ih (n / 10) (Nat.div_lt_self (by omega) (by omega)) c hc
      · simp at hc
        exact ⟨n % 10, Nat.mod_lt _ (by omega), hc⟩

theorem group3Rev_chars :
    ∀ (k : Nat) (ds : List Char), ds.length ≤ k →
      ∀ c ∈ group3Rev ds, c ∈ ds ∨ c = ',' := by
  intro k
  induction k with
  | zero =>
    intro ds hds c hc
    have : ds = [] := by
      cases ds with
      | nil => rfl
      | cons a t => simp at hds
    subst this
    rw [group3Rev] at hc
    simp at hc
  | succ k ih =>
    intro ds hds c hc
    rw [group3Rev] at hc
    split at hc
    · exact Or.inl hc
    next h =>
      rw [List.mem_append] at hc
      rcases hc with hc | hc
      · exact Or.inl (List.take_subset 3 ds hc)
      · rw [List.mem_cons] at hc
        rcases hc with hc | hc
        · exact Or.inr hc
        · rcases ih (ds.drop 3) (by simp; omega) c hc with h' | h'
          · exact Or.inl (List.drop_subset 3 ds h')
          · exact Or.inr h'

theorem commaFmt_chars (n : Nat) :
    ∀ c ∈ commaFmt n, (∃ d, d < 10 ∧ c = digitChar d) ∨ c = ',' := by
  intro c hc
  unfold commaFmt at hc
  rw [List.mem_reverse] at hc
  rcases group3Rev_chars (natDigits n).reverse.length _ (le_refl _) c hc with h | h
  · rw [List.mem_reverse] at h
    exact Or.inl (natDigits_chars n c h)
  · exact Or.inr h

theorem group3Rev_ne_nil {ds : List Char} (h : ds ≠ []) : group3Rev ds ≠ [] := by
  rw [group3Rev]
  split
  · exact h
  · simp

theorem commaFmt_ne_nil (n : Nat) : commaFmt n ≠ [] := by
  unfold commaFmt
  simp only [ne_eq, List.reverse_eq_nil_iff]
  apply group3Rev_ne_nil
  simp [natDigits_ne_nil n]

theorem commaFmt_not_nl (n : Nat) : '\n' ∉ commaFmt n := by
  intro h
  rcases commaFmt_chars n _ h with ⟨d, hd, hcd⟩ | h'
  · have hall : ∀ d, d < 10 → ¬ digitChar d = '\n' := by decide
    exact hall d hd hcd.symm
  · simp at h'

theorem commaFmt_not_ws (n : Nat) : ∀ c ∈ commaFmt n, isWS c = false := by
  intro c hc
  rcases commaFmt_chars n _ hc with ⟨d, hd, hcd⟩ | h'
  · have hall : ∀ d, d < 10 → isWS (digitChar d) = false := by decide
    exact hcd ▸ hall d hd
  · rw [h']
    decide

theorem dropWhile_ws_append {w t : List Char} (hw : ∀ c ∈ w, isWS c = true) :
    (w ++ t).dropWhile isWS = t.dropWhile isWS := by
  induction w with
  | nil => simp
  | cons c w' ih =>
    rw [List.cons_append, List.dropWhile_cons]
    rw [if_pos (hw c (List.mem_cons_self c w'))]
    exact ih (fun c hc => hw c (List.mem_cons_of_mem _ hc))

theorem dropWhile_eq_self_of_pyStrip {v : List Char} (h : pyStrip v = v) :
    v.dropWhile isWS = v := by
  have hsuf : v.dropWhile isWS <:+ v := List.dropWhile_suffix _
  have l2 : (v.dropWhile isWS).length ≤ v.length :=
    (List.dropWhile_suffix isWS).sublist.length_le
  have l1 : v.length ≤ (v.dropWhile isWS).length := by
    conv_lhs => rw [← h]
    unfold pyStrip
    rw [List.length_reverse]
    calc ((v.dropWhile isWS).reverse.dropWhile isWS).length
        ≤ (v.dropWhile isWS).reverse.length :=
          (List.dropWhile_suffix isWS).sublist.length_le
      _ = (v.dropWhile isWS).length := List.length_reverse _
  exact hsuf.eq_of_length (by omega)

theorem revDropWhile_eq_self_of_pyStrip {v : List Char} (h : pyStrip v = v) :
    v.reverse.dropWhile isWS = v.reverse := by
  have hd := dropWhile_eq_self_of_pyStrip h
  unfold pyStrip at h
  rw [hd] at h
  have h2 := congrArg List.reverse h
  rw [List.reverse_reverse] at h2
  exact h2

theorem head_not_ws_of_pyStrip {a : Char} {v : List Char}
    (h : pyStrip (a :: v) = a :: v) : isWS a = false := by
  have hd := dropWhile_eq_self_of_pyStrip h
  by_contra hws
  rw [Bool.not_eq_false] at hws
  rw [List.dropWhile_cons, if_pos hws] at hd
  have : (v.dropWhile isWS).length ≤ v.length :=
    (List.dropWhile_suffix isWS).sublist.length_le
  have h2 := congrArg List.length hd
  simp at h2
  omega

theorem pyStrip_sandwich {w1 w2 v : List Char}
    (h1 : ∀ c ∈ w1, isWS c = true) (h2 : ∀ c ∈ w2, isWS c = true)
    (hv : pyStrip v = v) : pyStrip (w1 ++ v ++ w2) = v := by
  unfold pyStrip
  rw [List.append_assoc, dropWhile_ws_append h1]
  cases hv0 : v with
  | nil =>
    simp only [List.nil_append]
    have hw2 : w2.dropWhile isWS = [] := by
      have := dropWhile_ws_append h2 (t := ([] : List Char))
      rw [List.append_nil] at this
      simpa using this
    rw [hw2]
    rfl
  | cons a v' =>
    have ha : isWS a = false := head_not_ws_of_pyStrip (hv0 ▸ hv)
    rw [List.cons_append, List.dropWhile_cons, if_neg (by simp [ha])]
    rw [show a :: (v' ++ w2) = (a :: v') ++ w2 from by simp]
    rw [List.reverse_append]
    rw [dropWhile_ws_append (fun c hc => h2 c (List.mem_reverse.mp hc))]
    rw [revDropWhile_eq_self_of_pyStrip (hv0 ▸ hv)]
    rw [List.reverse_reverse]

/-- Well-formed metadata field: nonempty, single-line, already stripped. -/
def GoodStr (v : List Char) : Prop := v ≠ [] ∧ '\n' ∉ v ∧ pyStrip v = v

/-- Well-formed page record for the delimiter round-trip: trimmed
single-line metadata and trimmed HTML that never embeds the 80-`=` rule.
-/
def GoodPage (p : PageInput) : Prop :=
  GoodStr p.label ∧ GoodStr p.url ∧ GoodStr p.timestamp ∧
  pyStrip p.html = p.html ∧ substr rule p.html = false

instance decGoodStr (v : List Char) : Decidable (GoodStr v) := by
  unfold GoodStr
  infer_instance

instance decGoodPage (p : PageInput) : Decidable (GoodPage p) := by
  unfold GoodPage
  infer_instance

/-- The groups the `PAGE_HEADER` match captures on a written header. -/
def groupsOf (p : PageInput) : HeaderGroups :=
  ⟨p.label, p.url, p.timestamp, commaFmt p.html.length ++ chars " bytes"⟩

/-- The record `split_pages` should recover for a written page. -/
def loadedOf (p : PageInput) : LoadedPage :=
  ⟨p.label, p.url, p.timestamp, p.html⟩

theorem tryMatch_hdrCore (p : PageInput) (hl : GoodStr p.label)
    (hu : GoodStr p.url) (ht : GoodStr p.timestamp) (T : List Char) :
    tryMatch (hdrCore p ++ T) = some (groupsOf p, T) := by
  obtain ⟨hl0, hl1, hl2⟩ := hl
  obtain ⟨hu0, hu1, hu2⟩ := hu
  obtain ⟨ht0, ht1, ht2⟩ := ht
  obtain ⟨la, lv, hla⟩ : ∃ a v, p.label = a :: v := by
    cases hll : p.label with
    | nil => exact absurd hll hl0
    | cons a v => exact ⟨a, v, rfl⟩
  obtain ⟨ua, uv, hua⟩ : ∃ a v, p.url = a :: v := by
    cases hll : p.url with
    | nil => exact absurd hll hu0
    | cons a v => exact ⟨a, v, rfl⟩
  obtain ⟨ta, tv, hta⟩ : ∃ a v, p.timestamp = a :: v := by
    cases hll : p.timestamp with
    | nil => exact absurd hll ht0
    | cons a v => exact ⟨a, v, rfl⟩
  obtain ⟨ca, cv, hcm⟩ : ∃ a v, commaFmt p.html.length = a :: v := by
    cases hcc : commaFmt p.html.length with
    | nil => exact absurd hcc (commaFmt_ne_nil _)
    | cons a v => exact ⟨a, v, rfl⟩
  have hlaws : isWS la = false := head_not_ws_of_pyStrip (hla ▸ hl2)
  have huaws : isWS ua = false := head_not_ws_of_pyStrip (hua ▸ hu2)
  have htaws : isWS ta = false := head_not_ws_of_pyStrip (hta ▸ ht2)
  have hcaws : isWS ca = false :=
    commaFmt_not_ws _ ca (hcm ▸ List.mem_cons_self _ _)
  have hg4nl : '\n' ∉ ca :: (cv ++ chars " bytes") := by
    intro hmem
    rw [← List.cons_append, ← hcm, List.mem_append] at hmem
    rcases hmem with hmem | hmem
    · exact commaFmt_not_nl _ hmem
    · exact absurd hmem (by decide)
  have h4 : parseP4 (' ' :: (ca :: (cv ++ chars " bytes")) ++
      '\n' :: rule ++ T) = some (ca :: (cv ++ chars " bytes"), T) := by
    unfold parseP4
    exact parseField_cons some rule hcaws hg4nl rfl
  have h3 : parseP3 (' ' :: (ta :: tv) ++ '\n' :: chars "SIZE:" ++
      (' ' :: (ca :: (cv ++ chars " bytes")) ++ '\n' :: rule ++ T)) =
      some (ta :: tv, ca :: (cv ++ chars " bytes"), T) := by
    unfold parseP3
    exact parseField_cons parseP4 (chars "SIZE:") htaws (hta ▸ ht1) h4
  have h2 : parseP2 (' ' :: (ua :: uv) ++ '\n' :: chars "TIMESTAMP:" ++
      (' ' :: (ta :: tv) ++ '\n' :: chars "SIZE:" ++
        (' ' :: (ca :: (cv ++ chars " bytes")) ++ '\n' :: rule ++ T))) =
      some (ua :: uv, ta :: tv, ca :: (cv ++ chars " bytes"), T) := by
    unfold parseP2
    exact parseField_cons parseP3 (chars "TIMESTAMP:") huaws (hua ▸ hu1) h3
  have h1 : parseP1 (' ' :: (la :: lv) ++ '\n' :: chars "URL:" ++
      (' ' :: (ua :: uv) ++ '\n' :: chars "TIMESTAMP:" ++
        (' ' :: (ta :: tv) ++ '\n' :: chars "SIZE:" ++
          (' ' :: (ca :: (cv ++ chars " bytes")) ++ '\n' :: rule ++ T)))) =
      some (la :: lv, ua :: uv, ta :: tv, ca :: (cv ++ chars " bytes"), T) := by
    unfold parseP1
    exact parseField_cons parseP2 (chars "URL:") hlaws (hla ▸ hl1) h2
  have hshape : hdrCore p ++ T =
      rule ++ (chars "\nPAGE:" ++ (' ' :: (la :: lv) ++ '\n' :: chars "URL:" ++
        (' ' :: (ua :: uv) ++ '\n' :: chars "TIMESTAMP:" ++
          (' ' :: (ta :: tv) ++ '\n' :: chars "SIZE:" ++
            (' ' :: (ca :: (cv ++ chars " bytes")) ++ '\n' :: rule ++ T))))) := by
    have e1 : chars "\nPAGE: " = chars "\nPAGE:" ++ [' '] := rfl
    have e2 : chars "\nURL: " = chars "\nURL:" ++ [' '] := rfl
    have e3 : chars "\nTIMESTAMP: " = chars "\nTIMESTAMP:" ++ [' '] := rfl
    have e4 : chars "\nSIZE: " = chars "\nSIZE:" ++ [' '] := rfl
    have e5 : chars " bytes\n" = chars " bytes" ++ ['\n'] := rfl
    have f2 : chars "\nURL:" = '\n' :: chars "URL:" := rfl
    have f3 : chars "\nTIMESTAMP:" = '\n' :: chars "TIMESTAMP:" := rfl
    have f4 : chars "\nSIZE:" = '\n' :: chars "SIZE:" := rfl
    rw [hdrCore, hla, hua, hta, hcm, e1, e2, e3, e4, e5, f2, f3, f4]
    simp [List.append_assoc]
  simp only [List.cons_append] at h1
  rw [hshape]
  unfold tryMatch
  simp only [dropPrefixQ_append, List.cons_append, h1, groupsOf, hla, hua, hta,
    hcm]

theorem tryMatch_none_of_no_rule_start {s : List Char}
    (h : rule.isPrefixOf s = false) : tryMatch s = none := by
  unfold tryMatch
  simp [dropPrefixQ, h]

theorem rule_length : rule.length = 80 := by
  simp [rule]

/-- No `PAGE_HEADER` match can start inside a stretch of text that does
not embed the 80-`=` rule, provided the following text starts with a
newline (or there is none): any candidate start would need 80 `=` in a
row, which the stretch cannot supply and the newline interrupts. -/
theorem tryMatch_none_in_content {x y : List Char} (hx : substr rule x = false)
    (hy : y = [] ∨ ∃ t, y = '\n' :: t) :
    ∀ j, j < x.length → tryMatch (x.drop j ++ y) = none := by
  intro j _
  apply tryMatch_none_of_no_rule_start
  by_contra hp
  rw [Bool.not_eq_false] at hp
  have hpre : rule <+: x.drop j ++ y := isPrefixOf_true_iff.mp hp
  have hxinf : ¬ rule <:+: x := fun hcon => by
    rw [← substr_true_iff] at hcon
    rw [hcon] at hx
    exact Bool.true_eq_false.mp hx
  by_cases hlen : 80 ≤ (x.drop j).length
  · have hpd : rule <+: x.drop j := by
      rw [List.prefix_iff_eq_take] at hpre ⊢
      rw [List.take_append_eq_append_take, rule_length] at hpre
      rw [show 80 - (x.drop j).length = 0 from by omega] at hpre
      simpa [rule_length] using hpre
    exact hxinf (hpd.isInfix.trans (List.drop_suffix j x).isInfix)
  · push_neg at hlen
    rcases hy with rfl | ⟨t, rfl⟩
    · rw [List.append_nil] at hpre
      have := hpre.length_le
      rw [rule_length] at this
      omega
    · obtain ⟨k, hk⟩ : ∃ k, 80 - (x.drop j).length = k + 1 :=
        ⟨80 - (x.drop j).length - 1, by omega⟩
      have heq : rule = x.drop j ++ '\n' :: t.take k := by
        rw [List.prefix_iff_eq_take] at hpre
        rw [List.take_append_eq_append_take, rule_length, hk,
          List.take_succ_cons, List.take_of_length_le (by omega)] at hpre
        exact hpre
      have hmem : '\n' ∈ rule := by
        rw [heq]
        exact List.mem_append_right _ (List.mem_cons_self _ _)
      have hmem2 : '\n' ∈ List.replicate 80 '=' := by
        rw [show List.replicate 80 '=' = rule from rfl]
        exact hmem
      exact absurd (List.eq_of_mem_replicate hmem2) (by decide)

theorem findFirst_cons_none {c : Char} {t : List Char}
    (hc : tryMatch (c :: t) = none) :
    findFirst (c :: t) = (findFirst t).map (fun pr => (c :: pr.1, pr.2)) := by
  conv_lhs => rw [findFirst]
  simp only [hc]
  cases hf : findFirst t with
  | none => simp
  | some pr => simp

theorem findFirst_cons_some {c : Char} {t : List Char} {h : HeaderGroups}
    {r : List Char} (hc : tryMatch (c :: t) = some (h, r)) :
    findFirst (c :: t) = some ([], h, r) := by
  conv_lhs => rw [findFirst]
  simp only [hc]

theorem findFirst_none_of {s : List Char}
    (h : ∀ j, j < s.length → tryMatch (s.drop j) = none) : findFirst s = none := by
  induction s with
  | nil => rfl
  | cons c t ih =>
    rw [findFirst_cons_none (by
      have := h 0 (by simp)
      simpa using this)]
    rw [ih (fun j hj => by
      have := h (j + 1) (by simp; omega)
      simpa using this)]
    rfl

theorem findFirst_append_skip {x y : List Char}
    (h : ∀ j, j < x.length → tryMatch (x.drop j ++ y) = none) :
    findFirst (x ++ y) = (findFirst y).map (fun pr => (x ++ pr.1, pr.2)) := by
  induction x with
  | nil =>
    simp only [List.nil_append]
    cases findFirst y with
    | none => rfl
    | some pr => rfl
  | cons c t ih =>
    rw [List.cons_append]
    rw [findFirst_cons_none (by
      have := h 0 (by simp)
      simpa using this)]
    rw [ih (fun j hj => by
      have := h (j + 1) (by simp; omega)
      simpa using this)]
    cases findFirst y with
    | none => rfl
    | some pr => simp

theorem tryMatch_cons_nl (t : List Char) : tryMatch ('\n' :: t) = none :=
  tryMatch_none_of_no_rule_start (by
    rw [show rule = '=' :: List.replicate 79 '=' from rfl]
    simp [List.isPrefixOf])

theorem findFirst_of_tryMatch {s : List Char} {h : HeaderGroups}
    {r : List Char} (hs : tryMatch s = some (h, r)) :
    findFirst s = some ([], h, r) := by
  cases s with
  | nil =>
    rw [tryMatch_none_of_no_rule_start (by decide)] at hs
    exact absurd hs (by simp)
  | cons c t => exact findFirst_cons_some hs

/-- The whole file contributed by one page. -/
def blocks (ps : List PageInput) : List Char := (ps.map blockOf).join

theorem foldl_save (ps : List PageInput) (f : List Char) :
    ps.foldl save_html_to_single_file f = f ++ blocks ps := by
  induction ps generalizing f with
  | nil => simp [blocks]
  | cons p ps ih =>
    rw [List.foldl_cons, ih]
    simp [blocks, save_html_to_single_file, blockOf, List.append_assoc]

theorem appendAll_eq_blocks (ps : List PageInput) : appendAll ps = blocks ps := by
  unfold appendAll
  rw [foldl_save]
  simp

theorem substr_rule_nn {h : List Char} (hh : substr rule h = false) :
    substr rule (chars "\n\n" ++ h) = false := by
  have hpre : ∀ t : List Char, rule.isPrefixOf ('\n' :: t) = false := by
    intro t
    rw [show rule = '=' :: List.replicate 79 '=' from rfl]
    simp [List.isPrefixOf]
  show substr rule ('\n' :: '\n' :: h) = false
  unfold substr
  rw [hpre]
  unfold substr
  rw [hpre]
  simpa using hh

/-- Scanning past one page's content lands exactly on the next written
header: the text before the match is the content plus the surrounding
blank lines, the groups are the written metadata, and scanning resumes at
the closing rule's end. -/
theorem findFirst_skip_block {h : List Char} (hh : substr rule h = false)
    (p' : PageInput) (hp' : GoodPage p') (T : List Char) :
    findFirst (chars "\n\n" ++ h ++ (chars "\n\n" ++ (hdrCore p' ++ T))) =
      some ((chars "\n\n" ++ h) ++ chars "\n\n", groupsOf p', T) := by
  have hx : substr rule (chars "\n\n" ++ h) = false := substr_rule_nn hh
  have hy : findFirst (chars "\n\n" ++ (hdrCore p' ++ T)) =
      some (chars "\n\n", groupsOf p', T) := by
    show findFirst ('\n' :: ('\n' :: (hdrCore p' ++ T))) = _
    rw [findFirst_cons_none (tryMatch_cons_nl _),
      findFirst_cons_none (tryMatch_cons_nl _),
      findFirst_of_tryMatch (tryMatch_hdrCore p' hp'.1 hp'.2.1 hp'.2.2.1 T)]
    rfl
  rw [findFirst_append_skip (x := chars "\n\n" ++ h)
    (y := chars "\n\n" ++ (hdrCore p' ++ T))
    (tryMatch_none_in_content hx (Or.inr ⟨'\n' :: (hdrCore p' ++ T), rfl⟩))]
  rw [hy]
  rfl

theorem pyStrip_nn_html {h : List Char} (hs : pyStrip h = h) :
    pyStrip (chars "\n\n" ++ h) = h := by
  have h0 : pyStrip (chars "\n\n" ++ h ++ []) = h :=
    pyStrip_sandwich (by decide) (by simp) hs
  rw [List.append_nil] at h0
  exact h0

theorem pyStrip_nn_html_nn {h : List Char} (hs : pyStrip h = h) :
    pyStrip (chars "\n\n" ++ h ++ chars "\n\n") = h :=
  pyStrip_sandwich (by decide) (by decide) hs

theorem mkLoaded_groupsOf (p : PageInput) (hp : GoodPage p)
    (content : List Char) (hc : pyStrip content = p.html) :
    mkLoaded (groupsOf p) content = loadedOf p := by
  obtain ⟨⟨_, _, hl2⟩, ⟨_, _, hu2⟩, ⟨_, _, ht2⟩, _, _⟩ := hp
  unfold mkLoaded groupsOf loadedOf
  simp [hl2, hu2, ht2, hc]

theorem findFirst_at_block (p : PageInput) (hl : GoodStr p.label)
    (hu : GoodStr p.url) (ht : GoodStr p.timestamp) (T : List Char) :
    findFirst (chars "\n\n" ++ (hdrCore p ++ T)) =
      some (chars "\n\n", groupsOf p, T) := by
  show findFirst ('\n' :: ('\n' :: (hdrCore p ++ T))) = _
  rw [findFirst_cons_none (tryMatch_cons_nl _),
    findFirst_cons_none (tryMatch_cons_nl _),
    findFirst_of_tryMatch (tryMatch_hdrCore p hl hu ht T)]
  rfl

theorem splitGo_blocks (ps : List PageInput) :
    (∀ q ∈ ps, GoodPage q) → ∀ p : PageInput, GoodPage p →
      splitGo (groupsOf p) (chars "\n\n" ++ p.html ++ blocks ps) =
        loadedOf p :: ps.map loadedOf := by
  induction ps with
  | nil =>
    intro _ p hp
    have hnone : findFirst (chars "\n\n" ++ p.html ++ blocks []) = none := by
      rw [show blocks ([] : List PageInput) = [] from rfl, List.append_nil]
      apply findFirst_none_of
      intro j hj
      have h0 := tryMatch_none_in_content (x := chars "\n\n" ++ p.html)
        (y := []) (substr_rule_nn hp.2.2.2.2) (Or.inl rfl) j hj
      rwa [List.append_nil] at h0
    rw [splitGo, hnone]
    show [mkLoaded (groupsOf p) (chars "\n\n" ++ p.html ++ blocks [])] = _
    rw [show blocks ([] : List PageInput) = [] from rfl, List.append_nil]
    rw [mkLoaded_groupsOf p hp _ (pyStrip_nn_html hp.2.2.2.1)]
    rfl
  | cons p' ps' ih =>
    intro hq p hp
    have hp' := hq p' (List.mem_cons_self _ _)
    have hqs : ∀ q ∈ ps', GoodPage q :=
      fun q hq' => hq q (List.mem_cons_of_mem _ hq')
    have hregroup : chars "\n\n" ++ p.html ++ blocks (p' :: ps') =
        chars "\n\n" ++ p.html ++ (chars "\n\n" ++ (hdrCore p' ++
          (chars "\n\n" ++ p'.html ++ blocks ps'))) := by
      simp [blocks, blockOf, pageSeparator, List.append_assoc]
    rw [hregroup, splitGo]
    rw [findFirst_skip_block hp.2.2.2.2 p' hp'
      (chars "\n\n" ++ p'.html ++ blocks ps')]
    show mkLoaded (groupsOf p) (chars "\n\n" ++ p.html ++ chars "\n\n") ::
        splitGo (groupsOf p') (chars "\n\n" ++ p'.html ++ blocks ps') = _
    rw [mkLoaded_groupsOf p hp _ (pyStrip_nn_html_nn hp.2.2.2.1)]
    rw [ih hqs p' hp']
    rfl

theorem split_pages_appendAll (ps : List PageInput) (hne : ps ≠ [])
    (hg : ∀ p ∈ ps, GoodPage p) :
    split_pages (appendAll ps) = ps.map loadedOf := by
  obtain ⟨p, ps', rfl⟩ : ∃ p ps', ps = p :: ps' := by
    cases ps with
    | nil => exact absurd rfl hne
    | cons p ps' => exact ⟨p, ps', rfl⟩
  have hp := hg p (List.mem_cons_self _ _)
  have hqs : ∀ q ∈ ps', GoodPage q :=
    fun q h => hg q (List.mem_cons_of_mem _ h)
  rw [appendAll_eq_blocks]
  rw [show blocks (p :: ps') = chars "\n\n" ++ (hdrCore p ++
      (chars "\n\n" ++ p.html ++ blocks ps')) from by
    simp [blocks, blockOf, pageSeparator, List.append_assoc]]
  unfold split_pages
  rw [findFirst_at_block p hp.1 hp.2.1 hp.2.2.1 _]
  show splitGo (groupsOf p) (chars "\n\n" ++ p.html ++ blocks ps') = _
  rw [splitGo_blocks ps' hqs p hp]
  rfl

/-! ## Claim C6: raw-page format round-trip -/

/-- C6 (amended): for every nonempty run of pages whose labels, URLs and
timestamps are nonempty, single-line and already stripped, and whose HTML
is already stripped and never embeds an 80-`=` rule, appending them with
`save_html_to_single_file` and re-reading with `split_pages` recovers
exactly the written pages — same labels, URLs, timestamps and content; and
any input with no delimiter match yields the single `full_file` page
holding the whole input. -/
theorem loader_roundtrip (ps : List PageInput) (s : List Char)
    (hne : ps ≠ []) (hg : ∀ p ∈ ps, GoodPage p) (hs : findFirst s = none) :
    split_pages (appendAll ps) = ps.map loadedOf ∧
      split_pages s = [⟨chars "full_file", [], [], s⟩] := by
  refine ⟨split_pages_appendAll ps hne hg, ?_⟩
  unfold split_pages
  rw [hs]

/-- Witness for C6 at two concrete pages and a separator-free input. -/
theorem loader_roundtrip_witness :
    split_pages (appendAll
        [⟨chars "product_page", chars "https://a.example/x",
          chars "2024-01-01 10:00:00", chars "<html>one</html>"⟩,
        ⟨chars "reviews_page_1", chars "https://a.example/y",
          chars "2024-01-01 10:00:05", chars "<html>two</html>"⟩]) =
      [⟨chars "product_page", chars "https://a.example/x",
          chars "2024-01-01 10:00:00", chars "<html>one</html>"⟩,
        ⟨chars "reviews_page_1", chars "https://a.example/y",
          chars "2024-01-01 10:00:05", chars "<html>two</html>"⟩].map loadedOf ∧
      split_pages (chars "no delimiter here") =
        [⟨chars "full_file", [], [], chars "no delimiter here"⟩] :=
  loader_roundtrip _ _ (by decide) (by decide) (by decide)

/-- C6 counterexample to the claim as stated: content with surrounding
whitespace does not survive the round-trip, because `split_pages` strips
each recovered slice. -/
theorem loader_roundtrip_counterexample :
    (split_pages (appendAll [⟨chars "p", chars "u", chars "t",
        chars " x "⟩])).map LoadedPage.content ≠ [chars " x "] := by
  have hfile : appendAll [⟨chars "p", chars "u", chars "t", chars " x "⟩] =
      chars "\n\n" ++ (hdrCore ⟨chars "p", chars "u", chars "t", chars " x "⟩ ++
        (chars "\n\n" ++ chars " x ")) := by
    simp [appendAll, save_html_to_single_file, pageSeparator,
      List.append_assoc]
  rw [hfile]
  unfold split_pages
  rw [findFirst_at_block ⟨chars "p", chars "u", chars "t", chars " x "⟩
    (by decide) (by decide) (by decide) _]
  show (splitGo (groupsOf ⟨chars "p", chars "u", chars "t", chars " x "⟩)
      (chars "\n\n" ++ chars " x ")).map LoadedPage.content ≠ [chars " x "]
  rw [splitGo]
  rw [findFirst_none_of (s := chars "\n\n" ++ chars " x ") (fun j hj => by
    have h0 := tryMatch_none_in_content (x := chars "\n\n" ++ chars " x ")
      (y := []) (by decide) (Or.inl rfl) j hj
    rwa [List.append_nil] at h0)]
  decide

end AmazonScrape
